import Mathlib

/-!
Shallow embedding of `lh2gh.py`, a one-pass converter from Lighthouse
issue-tracker JSON exports to the GitHub import format.  Pure functions of
the source become Lean functions; the run-wide option object becomes an
explicit `Config` record; Python exceptions become `Except`; the
"return None for spam" convention becomes `Option`.  Strings are modelled
by Lean `String` (a list of characters), and the two regex passes of the
source are modelled character-by-character with the exact backtracking
semantics of the Python patterns involved.
-/

/-- Run-wide options (the `opt` global of the script, after `parse_cmdline`).
`remap_until`/`remap_offset` model `--remap-until`/`--remap-offset`
(`parse_cmdline` enforces that the two are given together, so the offset is
kept as a plain integer that is only meaningful when `remap_until` is set);
`usermap` models the `--map-user` dictionary and `fallback_user` the
optional `--fallback-user` name. -/
structure Config where
  remap_until : Option Int
  remap_offset : Int
  usermap : String → Option String
  fallback_user : Option String

/-- Python truthiness of `opt.fallback_user or name`: the fallback string is
used unless it is `None` or empty. -/
def pyOrName (fb : Option String) (name : String) : String :=
  match fb with
  | some f => if f = "" then name else f
  | none => name

/-- Source line `return opt.usermap.get(name, opt.fallback_user or name)`. -/
def map_user (cfg : Config) (name : String) : String :=
  match cfg.usermap name with
  | some u => u
  | none => pyOrName cfg.fallback_user name

/-- The comparison `user == opt.fallback_user` of the source (lines 113 and
175): comparing a string with Python `None` is `False`. -/
def eqFallback (cfg : Config) (user : String) : Bool :=
  match cfg.fallback_user with
  | some f => user = f
  | none => false

/-- Source `map_ticket_id`: identity when no threshold is configured, else
shift ids up to the threshold by the offset and pass the rest through. -/
def map_ticket_id (cfg : Config) (n : Int) : Int :=
  match cfg.remap_until with
  | none => n
  | some t => if n ≤ t then n + cfg.remap_offset else n

/-- Digit-run accumulator used to model `re.sub('#(\d+)', ...)`:
`int(<digits>)` on a decimal digit string. -/
def digitsToNat (ds : List Char) : Nat :=
  ds.foldl (fun n c => 10 * n + (c.toNat - 48)) 0

/-- Right-fold scanner for the `#(\d+)` substitution.  Returns the pending
digit run at the head of the suffix being processed together with the
rewritten remainder; a `#` immediately followed by that run becomes the
remapped reference, any other character flushes the run verbatim.  This is
equivalent to the left-to-right maximal-munch of `re.sub` because `#\d+`
tokens are determined locally. -/
def fnGo (cfg : Config) : List Char → List Char × List Char
  | [] => ([], [])
  | c :: t =>
    let pr := fnGo cfg t
    if c.isDigit then (c :: pr.1, pr.2)
    else if c = '#' then
      if pr.1.isEmpty then ([], '#' :: pr.2)
      else ([], '#' :: (toString (map_ticket_id cfg (Int.ofNat (digitsToNat pr.1)))).data ++ pr.2)
    else ([], c :: (pr.1 ++ pr.2))

/-- Character-list form of `fix_tickets_numbers`. -/
def fixNumsL (cfg : Config) (l : List Char) : List Char :=
  (fnGo cfg l).1 ++ (fnGo cfg l).2

/-- Source `fix_tickets_numbers`: rewrite every `#<digits>` through
`map_ticket_id`. -/
def fix_tickets_numbers (cfg : Config) (s : String) : String :=
  String.mk (fixNumsL cfg s.data)

/-- Python 2 `\s` on byte strings: space, tab, newline, carriage return,
vertical tab, form feed. -/
def isPySpace (c : Char) : Bool :=
  c = ' ' || c = '\t' || c = '\n' || c = '\r' || c = '\x0B' || c = '\x0C'

/-- Index of the last newline character of a list, if any. -/
def lastNL : List Char → Option Nat
  | [] => none
  | c :: t =>
    match lastNL t with
    | some k => some (k + 1)
    | none => if c = '\n' then some 0 else none

/-- Match length (beyond the three `@`) of `(?m)^@@@\s*([\r\n]*)$` at a
line start, reflecting the greedy backtracking of the Python engine: with
`W` the maximal whitespace run after `@@@`, the match succeeds with `\s*`
consuming up to the end of the string when `W` reaches it, else up to the
last newline inside `W`; the `([\r\n]*)` group always ends up empty, so the
replacement is always exactly three backticks. -/
def fenceMatchLen (rest : List Char) : Option Nat :=
  let W := rest.takeWhile isPySpace
  if (rest.drop W.length).isEmpty then some W.length
  else lastNL W

/-- Fence-marker detection at one position: a match requires a line start,
a `@` under the cursor followed by two more, and a successful
`fenceMatchLen` on the remainder. -/
def fenceHit (bol : Bool) (c : Char) (t : List Char) : Option Nat :=
  if bol ∧ c = '@' then
    match t with
    | '@' :: '@' :: rest => fenceMatchLen rest
    | _ => none
  else none

/-- Scanner for `fix_code_blocks`.  `fuel` bounds the recursion (each step
consumes at least one character), `bol` records whether the current
position is a line start (`(?m)^`).  On a fence match the three `@` plus
the matched run are replaced by three backticks and scanning resumes at
the match end; otherwise one character is copied. -/
def fcbAux : Nat → Bool → List Char → List Char
  | 0, _, l => l
  | _ + 1, _, [] => []
  | fuel + 1, bol, c :: t =>
    match fenceHit bol c t with
    | some k =>
      "```".data ++
        fcbAux fuel (((t.drop 2).take k).getLast? == some '\n') ((t.drop 2).drop k)
    | none => c :: fcbAux fuel (c == '\n') t

/-- Source `fix_code_blocks`: `re.sub(r'(?m)^@@@\s*([\r\n]*)$', r'```\1', s)`. -/
def fix_code_blocks (s : String) : String :=
  String.mk (fcbAux s.data.length true s.data)

/-- Drop an expected literal from the front of a list, failing when the
list does not start with it (models the anchored part of `re.match`). -/
def dropLit : List Char → List Char → Option (List Char)
  | [], l => some l
  | _ :: _, [] => none
  | p :: ps, c :: cs => if c = p then dropLit ps cs else none

/-- One backtracking attempt of `^Submitted by:\s+([^\n]+)\n\n(.*)` with the
`\s+` consuming exactly `k` characters: the name group is the maximal
newline-free run that follows, after which the literal blank line is
required. -/
def sbAttempt (r : List Char) (k : Nat) : Option (List Char × List Char) :=
  let t := r.drop k
  let nm := t.takeWhile (fun c => !(c = '\n'))
  if nm.isEmpty then none
  else
    match t.drop nm.length with
    | '\n' :: '\n' :: rest => some (nm, rest)
    | _ => none

/-- Greedy descent of the `\s+` quantifier: try the longest whitespace
prefix first, then shorter ones, never the empty one. -/
def sbLoop (r : List Char) : Nat → Option (List Char × List Char)
  | 0 => none
  | k + 1 =>
    match sbAttempt r (k + 1) with
    | some x => some x
    | none => sbLoop r k

/-- Source line 102: `re.match(r'(?s)^Submitted by:\s+([^\n]+)\n\n(.*)', body)`,
returning the name group and the remainder group on success. -/
def matchSubmittedBy (s : String) : Option (String × String) :=
  match dropLit "Submitted by:".data s.data with
  | none => none
  | some r =>
    match sbLoop r (r.takeWhile isPySpace).length with
    | none => none
    | some (nm, rest) => some (String.mk nm, String.mk rest)

/-- Python 2 `str.lstrip()` with no argument: drop leading whitespace. -/
def pyLstrip (s : String) : String :=
  String.mk (s.data.dropWhile isPySpace)

/-- Python `'\n\n'.join(parts)`. -/
def joinBlank : List String → String
  | [] => ""
  | [s] => s
  | s :: s2 :: rest => s ++ "\n\n" ++ joinBlank (s2 :: rest)

/-- The provenance note of source lines 118-121, citing the pre-remap
number in both the text and the URL. -/
def renumber_note (n : Int) : String :=
  "Originally submitted as number " ++ toString n ++
    " - http://psycopg.lighthouseapp.com/projects/62710/tickets/" ++ toString n

/-- Literal list prefix test, by character equality. -/
def isPref : List Char → List Char → Bool
  | [], _ => true
  | _ :: _, [] => false
  | a :: as, b :: bs => a = b && isPref as bs

/-- Python `pat in s` substring containment. -/
def hasSub (pat : List Char) : List Char → Bool
  | [] => pat.isEmpty
  | c :: t => isPref pat (c :: t) || hasSub pat t

/-- One recorded revision of a Lighthouse ticket (`versions` entries). -/
structure LHVersion where
  user_name : String
  body : String
  created_at : String
  updated_at : String
  closed : Bool
deriving DecidableEq

/-- A Lighthouse ticket as read from `ticket.json` (the inner `'ticket'`
object).  `assigned_user_name` is `some` exactly when the JSON key is
present; `milestone_id` and `tag` are `none` for JSON `null`. -/
structure LHTicket where
  number : Int
  title : String
  latest_body : String
  creator_name : String
  created_at : String
  updated_at : String
  closed : Bool
  spam : Bool
  milestone_id : Option Int
  assigned_user_name : Option String
  state : String
  tag : Option String
  versions : List LHVersion
deriving DecidableEq

/-- A destination issue record (the `gh` dict of `convert_ticket`); optional
fields are `none` when the source leaves the key unset. -/
structure GHIssue where
  number : Int
  title : String
  body : String
  user : String
  state : String
  created_at : String
  updated_at : String
  assignee : Option String
  milestone : Option Nat
  labels : List String
  closed_at : Option String
deriving DecidableEq

/-- A destination comment record (`convert_comment` output). -/
structure GHComment where
  body : String
  user : String
  created_at : String
  updated_at : String
deriving DecidableEq

/-- The `GithubTicket` namedtuple of the source. -/
structure GithubTicket where
  ticket : GHIssue
  comments : List GHComment
deriving DecidableEq

/-- Label derivation of source lines 144-158: coarse-state label, then
`enhancement` for a `feature` tag, then `question` for a `question` tag. -/
def mkLabels (lh : LHTicket) : List String :=
  let stLabel : Option String :=
    if lh.state = "open" then some "confirmed"
    else if lh.state = "hold" then some "hold"
    else if lh.state = "invalid" then some "invalid"
    else none
  let tg := match lh.tag with | some t => t | none => ""
  (match stLabel with | some l => [l] | none => []) ++
    (if hasSub "feature".data tg.data then ["enhancement"] else []) ++
    (if hasSub "question".data tg.data then ["question"] else [])

/-- Milestone reference of source lines 135-136: a falsy id (absent or 0)
yields no milestone; a present id must resolve in the converted milestone
map, else the `KeyError` aborts the run. -/
def milestone_ref (milestones : Int → Option Nat) : Option Int → Except String (Option Nat)
  | none => Except.ok none
  | some m =>
    if m = 0 then Except.ok none
    else
      match milestones m with
      | some k => Except.ok (some k)
      | none => Except.error "KeyError: milestone_id"

/-- Source `convert_comment`: rewrite the body, resolve the author, and
prefix the attribution notice when the resolved user compares equal to the
fallback user. -/
def convert_comment (cfg : Config) (ver : LHVersion) : GHComment :=
  let b0 := fix_code_blocks (fix_tickets_numbers cfg ver.body)
  let u := map_user cfg ver.user_name
  { body :=
      if eqFallback cfg u then "Originally submitted by: " ++ ver.user_name ++ "\n\n" ++ b0
      else b0
    user := u
    created_at := ver.created_at
    updated_at := ver.updated_at }

/-- Source `convert_ticket`: spam tickets yield `none`; otherwise extract
the embedded `Submitted by:` author when present, assemble the notice
parts, rewrite the body, derive labels, take the closed date from the loop
over all versions, and convert the non-empty later versions to comments.
A milestone id that does not resolve raises (models the `KeyError`). -/
def convert_ticket (cfg : Config) (milestones : Int → Option Nat) (lh : LHTicket) :
    Except String (Option GithubTicket) :=
  if lh.spam then Except.ok none
  else
    let ghNumber := map_ticket_id cfg lh.number
    let ab : String × String :=
      match matchSubmittedBy lh.latest_body with
      | some (a, b) => (a, pyLstrip b)
      | none => (lh.creator_name, lh.latest_body)
    let user := map_user cfg ab.1
    let parts :=
      (if eqFallback cfg user then ["Originally submitted by: " ++ ab.1] else []) ++
        (if lh.number ≠ ghNumber then [renumber_note lh.number] else []) ++ [ab.2]
    let body := fix_code_blocks (fix_tickets_numbers cfg (joinBlank parts))
    match milestone_ref milestones lh.milestone_id with
    | Except.error e => Except.error e
    | Except.ok mnum =>
      Except.ok (some
        { ticket :=
            { number := ghNumber
              title := lh.title
              body := body
              user := user
              state := if lh.closed then "closed" else "open"
              created_at := lh.created_at
              updated_at := lh.updated_at
              assignee := lh.assigned_user_name.map (map_user cfg)
              milestone := mnum
              labels := mkLabels lh
              closed_at :=
                lh.versions.foldl (fun acc v => if v.closed then some v.created_at else acc) none }
          comments :=
            ((lh.versions.drop 1).filter (fun v => !(v.body = ""))).map (convert_comment cfg) })

/-- Python dict assignment `d[k] = v` on an association list: replace in
place when the key exists, else append. -/
def dictInsert (k : Int) (v : GithubTicket) (d : List (Int × GithubTicket)) :
    List (Int × GithubTicket) :=
  if (d.lookup k).isSome then d.map (fun p => if p.1 = k then (k, v) else p)
  else d ++ [(k, v)]

/-- Loop body of source `convert_tickets`: convert each ticket, skip the
`None` results, key the rest by the remapped directory id. -/
def convert_tickets_aux (cfg : Config) (milestones : Int → Option Nat)
    (acc : List (Int × GithubTicket)) :
    List (Int × LHTicket) → Except String (List (Int × GithubTicket))
  | [] => Except.ok acc
  | (n, lh) :: rest =>
    match convert_ticket cfg milestones lh with
    | Except.error e => Except.error e
    | Except.ok none => convert_tickets_aux cfg milestones acc rest
    | Except.ok (some t) =>
      convert_tickets_aux cfg milestones (dictInsert (map_ticket_id cfg n) t acc) rest

/-- Source `convert_tickets` over the items of the ticket dict. -/
def convert_tickets (cfg : Config) (milestones : Int → Option Nat)
    (lhs : List (Int × LHTicket)) : Except String (List (Int × GithubTicket)) :=
  convert_tickets_aux cfg milestones [] lhs

/-- The destination identifiers the conversion produces: the remapped
source identifiers of all non-spam tickets. -/
def destIds (cfg : Config) (lhs : List (Int × LHTicket)) : List Int :=
  (lhs.filter (fun p => !p.2.spam)).map (fun p => map_ticket_id cfg p.1)

/-- A Lighthouse milestone as read from its JSON file (the inner
`'milestone'` object). -/
structure LHMilestone where
  title : String
  goals : String
  created_at : String
  due_on : Option String
  open_tickets_count : Int
deriving DecidableEq

/-- A destination milestone record. -/
structure GHMilestone where
  number : Nat
  state : String
  title : String
  description : String
  created_at : String
  due_on : Option String
deriving DecidableEq

/-- Source `convert_milestone`: sequential number, open state for a
non-zero open-ticket count, due date copied only when truthy. -/
def convert_milestone (lhm : LHMilestone) (number : Nat) : GHMilestone :=
  { number := number
    state := if lhm.open_tickets_count ≠ 0 then "open" else "closed"
    title := lhm.title
    description := lhm.goals
    created_at := lhm.created_at
    due_on :=
      match lhm.due_on with
      | some d => if d = "" then none else some d
      | none => none }

/-- Ordering of dict items by source milestone id, as produced by Python
`sorted` on `(id, value)` pairs with unique ids. -/
def msLE (a b : Int × LHMilestone) : Prop := a.1 ≤ b.1

instance : DecidableRel msLE := fun a b => inferInstanceAs (Decidable (a.1 ≤ b.1))

instance : IsTotal (Int × LHMilestone) msLE := ⟨fun a b => Int.le_total a.1 b.1⟩

instance : IsTrans (Int × LHMilestone) msLE := ⟨fun _ _ _ h1 h2 => le_trans h1 h2⟩

/-- Source `convert_milestones`: sort the items by source id and number
them 1, 2, 3, … in that order, keyed by the original source id. -/
def convert_milestones (lhms : List (Int × LHMilestone)) : List (Int × GHMilestone) :=
  (List.enumFrom 1 (List.insertionSort msLE lhms)).map
    (fun p => (p.2.1, convert_milestone p.2.2 p.1))

/-- Body of a successful, non-spam ticket conversion. -/
def ticketBody? (r : Except String (Option GithubTicket)) : Option String :=
  match r with
  | Except.ok (some g) => some g.ticket.body
  | _ => none

/-- Author of a successful, non-spam ticket conversion. -/
def ticketUser? (r : Except String (Option GithubTicket)) : Option String :=
  match r with
  | Except.ok (some g) => some g.ticket.user
  | _ => none

/-- Closed timestamp of a successful, non-spam ticket conversion. -/
def ticketClosedAt? (r : Except String (Option GithubTicket)) : Option (Option String) :=
  match r with
  | Except.ok (some g) => some g.ticket.closed_at
  | _ => none

/-! Concrete fixtures used by witnesses and counterexamples. -/

/-- Config with no remapping and no user mapping. -/
def cfg0 : Config :=
  { remap_until := none, remap_offset := 0, usermap := fun _ => none, fallback_user := none }

/-- Config remapping ids 1..100 up by 100. -/
def cfgR : Config :=
  { remap_until := some 100, remap_offset := 100, usermap := fun _ => none, fallback_user := none }

/-- Config with an explicit mapping whose value collides with the fallback. -/
def cfgE : Config :=
  { remap_until := none, remap_offset := 0,
    usermap := fun n => if n = "alice" then some "bob" else none,
    fallback_user := some "bob" }

/-- Config remapping ids 1..5 up by 10, which collides with id 13. -/
def cfgC : Config :=
  { remap_until := some 5, remap_offset := 10, usermap := fun _ => none, fallback_user := none }

/-- Empty milestone-number lookup. -/
def ms0 : Int → Option Nat := fun _ => none

/-- A plain non-spam ticket with the given number, body and creator. -/
def mkTicket (n : Int) (body creator : String) (vers : List LHVersion) : LHTicket :=
  { number := n, title := "a title", latest_body := body, creator_name := creator,
    created_at := "2010-03-01T10:00:00Z", updated_at := "2010-03-02T10:00:00Z",
    closed := false, spam := false, milestone_id := none, assigned_user_name := none,
    state := "new", tag := none, versions := vers }

/-- Version fixture. -/
def mkVer (user body created : String) (closed : Bool) : LHVersion :=
  { user_name := user, body := body, created_at := created,
    updated_at := created, closed := closed }

/-- Ticket whose history closes twice, at different timestamps. -/
def tkTwoClosed : LHTicket :=
  mkTicket 1 "b" "u"
    [mkVer "u" "" "2009-12-30" false,
     mkVer "u" "closing" "2010-01-01" true,
     mkVer "u" "reclosing" "2010-02-02" true]

/-- Spam ticket fixture. -/
def tkSpam : LHTicket :=
  { mkTicket 9 "buy stuff" "spammer" [] with spam := true }

/-- Ticket whose creator has an explicit mapping entry in `cfgE`. -/
def tkE : LHTicket := mkTicket 1 "hello" "alice" []

/-- Tickets with unique source ids 3 and 13 for the collision example. -/
def tkA : LHTicket := mkTicket 3 "x" "u" []

/-- Second collision-example ticket. -/
def tkB : LHTicket := mkTicket 13 "y" "u" []

/-- Ticket whose body embeds a `Submitted by:` header. -/
def tkSB : LHTicket := mkTicket 5 "Submitted by: Carol\n\nHello world" "someone" []

/-- Ticket with a plain body and no embedded header. -/
def tkNB : LHTicket := mkTicket 6 "plain body" "dave" []

/-- Ticket (above any remap threshold) whose body holds a cross-reference. -/
def tkRef : LHTicket := mkTicket 200 "see #42" "u" []

/-- Milestone fixture. -/
def mkMs (t : String) : LHMilestone :=
  { title := t, goals := "g", created_at := "2010-01-01", due_on := none,
    open_tickets_count := 0 }

/-! Helper lemmas about the scanners. -/

theorem fnGo_flat (cfg : Config) : ∀ l : List Char, '#' ∉ l → (fnGo cfg l).1 ++ (fnGo cfg l).2 = l := by
  intro l h
  induction l with
  | nil => rfl
  | cons c t ih =>
    have hc : ¬c = '#' := fun e => h (e ▸ List.mem_cons_self c t)
    have ht : '#' ∉ t := fun m => h (List.mem_cons_of_mem c m)
    by_cases hd : c.isDigit
    · simp [fnGo, hd, ih ht]
    · simp [fnGo, hd, hc, ih ht]

theorem fixNumsL_id (cfg : Config) (l : List Char) (h : '#' ∉ l) : fixNumsL cfg l = l :=
  fnGo_flat cfg l h

theorem fixNumsL_append (cfg : Config) :
    ∀ a b : List Char, '#' ∉ a → fixNumsL cfg (a ++ b) = a ++ fixNumsL cfg b := by
  intro a b h
  induction a with
  | nil => simp
  | cons c a' ih =>
    have hc : ¬c = '#' := fun e => h (e ▸ List.mem_cons_self c a')
    have ha : '#' ∉ a' := fun m => h (List.mem_cons_of_mem c m)
    by_cases hd : c.isDigit
    · simpa [fixNumsL, fnGo, hd] using ih ha
    · simpa [fixNumsL, fnGo, hd, hc] using ih ha

theorem fnGo_fst_nil (cfg : Config) (b : List Char)
    (h : ∀ c, b.head? = some c → c.isDigit = false) : (fnGo cfg b).1 = [] := by
  cases b with
  | nil => rfl
  | cons c t =>
    have hc : c.isDigit = false := h c rfl
    by_cases he : c = '#'
    · simp [fnGo, hc, he]
      split <;> rfl
    · simp [fnGo, hc, he]

theorem fnGo_digits (cfg : Config) :
    ∀ ds b : List Char, (∀ c ∈ ds, c.isDigit = true) → (fnGo cfg b).1 = [] →
      fnGo cfg (ds ++ b) = (ds, (fnGo cfg b).2) := by
  intro ds b hds hb
  induction ds with
  | nil =>
    rw [List.nil_append]
    exact Prod.ext hb rfl
  | cons d ds' ih =>
    have hd : d.isDigit = true := hds d (List.mem_cons_self d ds')
    have hds' : ∀ c ∈ ds', c.isDigit = true := fun c m => hds c (List.mem_cons_of_mem d m)
    simp [fnGo, hd, ih hds']

theorem fixNumsL_token (cfg : Config) (t1 ds t2 : List Char)
    (h1 : '#' ∉ t1) (hds : ds ≠ []) (hdig : ∀ c ∈ ds, c.isDigit = true)
    (h2 : ∀ c, t2.head? = some c → c.isDigit = false) :
    fixNumsL cfg (t1 ++ '#' :: ds ++ t2) =
      t1 ++ '#' :: (toString (map_ticket_id cfg (Int.ofNat (digitsToNat ds)))).data ++
        fixNumsL cfg t2 := by
  simp only [List.append_assoc, List.cons_append]
  rw [fixNumsL_append cfg t1 ('#' :: (ds ++ t2)) h1]
  have hb : (fnGo cfg t2).1 = [] := fnGo_fst_nil cfg t2 h2
  have hgo : fnGo cfg (ds ++ t2) = (ds, (fnGo cfg t2).2) := fnGo_digits cfg ds t2 hdig hb
  have hfix : fixNumsL cfg t2 = (fnGo cfg t2).2 := by
    unfold fixNumsL; rw [hb]; simp
  simp only [fixNumsL, fnGo, hgo]
  simp [List.isEmpty_iff, hds, hfix, hb]

theorem fcbAux_id : ∀ (fuel : Nat) (bol : Bool) (l : List Char), '@' ∉ l → fcbAux fuel bol l = l := by
  intro fuel
  induction fuel with
  | zero => intro bol l _; rfl
  | succ f ih =>
    intro bol l h
    cases l with
    | nil => rfl
    | cons c t =>
      have hc : ¬c = '@' := fun e => h (e ▸ List.mem_cons_self c t)
      have ht : '@' ∉ t := fun m => h (List.mem_cons_of_mem c m)
      simp [fcbAux, fenceHit, hc, ih (c == '\n') t ht]

theorem fix_code_blocks_id (s : String) (h : '@' ∉ s.data) : fix_code_blocks s = s := by
  unfold fix_code_blocks
  rw [fcbAux_id s.data.length true s.data h]

theorem fix_tickets_numbers_id (cfg : Config) (s : String) (h : '#' ∉ s.data) :
    fix_tickets_numbers cfg s = s := by
  unfold fix_tickets_numbers
  rw [fixNumsL_id cfg s.data h]

theorem dropLit_self : ∀ p l : List Char, dropLit p (p ++ l) = some l := by
  intro p
  induction p with
  | nil => intro l; rfl
  | cons c p' ih => intro l; simp [dropLit, ih]

theorem twApp (p : Char → Bool) :
    ∀ a b : List Char, (∀ c ∈ a, p c = true) →
      List.takeWhile p (a ++ b) = a ++ List.takeWhile p b := by
  intro a b h
  induction a with
  | nil => simp
  | cons c a' ih =>
    have hc : p c = true := h c (List.mem_cons_self c a')
    have ha : ∀ x ∈ a', p x = true := fun x m => h x (List.mem_cons_of_mem c m)
    simp [List.takeWhile_cons, hc, ih ha]

theorem twNilHead (p : Char → Bool) (b : List Char)
    (h : ∀ c, b.head? = some c → p c = false) : List.takeWhile p b = [] := by
  cases b with
  | nil => rfl
  | cons c t => simp [List.takeWhile_cons, h c rfl]

theorem matchSubmittedBy_pos (ws nm rest : List Char)
    (hws : ws ≠ []) (hwsSp : ∀ c ∈ ws, isPySpace c = true)
    (hnm : nm ≠ []) (hnmNl : '\n' ∉ nm)
    (hhead : ∀ c, nm.head? = some c → isPySpace c = false) :
    matchSubmittedBy (String.mk ("Submitted by:".data ++ ws ++ nm ++ '\n' :: '\n' :: rest)) =
      some (String.mk nm, String.mk rest) := by
  obtain ⟨k, hk⟩ : ∃ k, ws.length = k + 1 := by
    cases hl : ws.length with
    | zero => exact absurd (List.length_eq_zero.mp hl) hws
    | succ n => exact ⟨n, rfl⟩
  have hnmTail : List.takeWhile isPySpace (nm ++ '\n' :: '\n' :: rest) = [] := by
    apply twNilHead
    intro c hc
    cases nm with
    | nil => exact absurd rfl hnm
    | cons x nm' =>
      simp at hc
      exact hc ▸ hhead x rfl
  have hK : List.takeWhile isPySpace (ws ++ (nm ++ '\n' :: '\n' :: rest)) = ws := by
    rw [twApp isPySpace ws (nm ++ '\n' :: '\n' :: rest) hwsSp, hnmTail, List.append_nil]
  have htw : List.takeWhile (fun c => !(c = '\n')) (nm ++ '\n' :: '\n' :: rest) = nm := by
    rw [twApp (fun c => !(c = '\n')) nm ('\n' :: '\n' :: rest)
      (fun c m => by simp; exact fun e => hnmNl (e ▸ m))]
    simp [List.takeWhile_cons]
  have hne : nm.isEmpty = false := by
    cases nm with
    | nil => exact absurd rfl hnm
    | cons x nm' => rfl
  have hattempt : sbAttempt (ws ++ (nm ++ '\n' :: '\n' :: rest)) (k + 1) = some (nm, rest) := by
    unfold sbAttempt
    rw [← hk]
    simp [List.drop_left, htw, hne]
  have hloop : sbLoop (ws ++ (nm ++ '\n' :: '\n' :: rest)) (k + 1) = some (nm, rest) := by
    simp [sbLoop, hattempt]
  unfold matchSubmittedBy
  simp only [List.append_assoc]
  rw [dropLit_self]
  simp only [hK, hk, hloop]

theorem not_mem_dropWhile (p : Char → Bool) (l : List Char) (c : Char) (h : c ∉ l) :
    c ∉ l.dropWhile p :=
  fun m => h ((List.dropWhile_sublist _).subset m)

/-! Claim theorems. -/

/-- Claim C5: with a configured threshold `T` and offset, `remap n` is
`n + offset` for `n ≤ T` and `n` for `n > T`; with no threshold it is the
identity. -/
theorem c5_remap (cfg : Config) (n : Int) :
    (∀ T, cfg.remap_until = some T →
        map_ticket_id cfg n = if n ≤ T then n + cfg.remap_offset else n)
    ∧ (cfg.remap_until = none → map_ticket_id cfg n = n) := by
  constructor
  · intro T hT; simp [map_ticket_id, hT]
  · intro h; simp [map_ticket_id, h]

theorem c5_remap_witness :
    map_ticket_id cfgR 42 = 142 ∧ map_ticket_id cfg0 42 = 42 := by
  constructor
  · have h := (c5_remap cfgR 42).1 100 rfl
    rw [h]; decide
  · exact (c5_remap cfg0 42).2 rfl

/-- Claim C9: a spam-flagged ticket converts to nothing at all — no
destination ticket, no comments — as an ordinary return value, not an
error. -/
theorem c9_spam_skipped (cfg : Config) (ms : Int → Option Nat) (lh : LHTicket)
    (h : lh.spam = true) : convert_ticket cfg ms lh = Except.ok none := by
  simp [convert_ticket, h]

theorem c9_spam_skipped_witness :
    tkSpam.spam = true ∧ convert_ticket cfg0 ms0 tkSpam = Except.ok none :=
  ⟨by decide, c9_spam_skipped cfg0 ms0 tkSpam (by decide)⟩

/-- Claim C10: with no fallback configured, an unmapped author name
resolves to itself, the fallback-equality test never fires, and comment
conversion never prepends the attribution notice. -/
theorem c10_unmapped_no_fallback (cfg : Config) (h : cfg.fallback_user = none) :
    (∀ name, cfg.usermap name = none → map_user cfg name = name)
    ∧ (∀ u, eqFallback cfg u = false)
    ∧ (∀ ver : LHVersion,
        (convert_comment cfg ver).body = fix_code_blocks (fix_tickets_numbers cfg ver.body)) := by
  refine ⟨?_, ?_, ?_⟩
  · intro name hn; simp [map_user, hn, pyOrName, h]
  · intro u; simp [eqFallback, h]
  · intro ver; simp [convert_comment, eqFallback, h]

theorem c10_witness :
    map_user cfg0 "ghost" = "ghost" ∧ eqFallback cfg0 "ghost" = false ∧
      (convert_comment cfg0 (mkVer "ghost" "hi" "2010-01-01" false)).body = "hi" := by
  have h := c10_unmapped_no_fallback cfg0 rfl
  refine ⟨h.1 "ghost" rfl, h.2.1 "ghost", ?_⟩
  rw [h.2.2 (mkVer "ghost" "hi" "2010-01-01" false)]
  decide

/-- Claim C1: contrary to the claim (and to the source comment "get the
closed date from the first closed version"), the loop over the versions
keeps overwriting `closed_at`, so the converted ticket carries the
created-timestamp of the LAST closed version, not the first. -/
theorem c1_closed_at_takes_last :
    ticketClosedAt? (convert_ticket cfg0 ms0 tkTwoClosed) = some (some "2010-02-02")
    ∧ ((tkTwoClosed.versions.filter (fun v => v.closed)).head?).map (fun v => v.created_at) =
        some "2010-01-01"
    ∧ ("2010-02-02" : String) ≠ "2010-01-01" := by decide

/-- Claim C2: contrary to the claim (and to the source docstring about
converting `'@@@ lang'`), the fence regex only rewrites a bare `@@@` line:
a line `@@@ python` is left unchanged, while a bare `@@@` line does become
three backticks. -/
theorem c2_fence_hint_not_rewritten :
    fix_code_blocks "@@@ python\nx = 1\n" = "@@@ python\nx = 1\n"
    ∧ fix_code_blocks "@@@\nx = 1\n" = "```\nx = 1\n"
    ∧ ("@@@ python\nx = 1\n" : String) ≠ "```python\nx = 1\n" := by decide

/-- Claim C3 (counterexample): the notice is keyed on the resolved name
comparing equal to the fallback name, so an author resolved through an
EXPLICIT mapping entry whose value coincides with the fallback username
still gets the notice, contradicting "never prefixed when the author was
resolved through an explicit mapping entry". -/
theorem c3_notice_despite_explicit_map :
    cfgE.usermap "alice" = some "bob"
    ∧ ticketBody? (convert_ticket cfgE ms0 tkE) =
        some "Originally submitted by: alice\n\nhello"
    ∧ ticketUser? (convert_ticket cfgE ms0 tkE) = some "bob" := by decide

/-- Claim C3 (amended): the attribution notice is prefixed exactly when
the resolved destination username compares equal to the configured
fallback username — which covers every fallback resolution, but also an
explicit mapping entry whose value coincides with the fallback name. -/
theorem c3_notice_iff_fallback_eq (cfg : Config) :
    (∀ ver : LHVersion,
        (eqFallback cfg (map_user cfg ver.user_name) = true →
          (convert_comment cfg ver).body =
            "Originally submitted by: " ++ ver.user_name ++ "\n\n" ++
              fix_code_blocks (fix_tickets_numbers cfg ver.body))
        ∧ (eqFallback cfg (map_user cfg ver.user_name) = false →
          (convert_comment cfg ver).body = fix_code_blocks (fix_tickets_numbers cfg ver.body)))
    ∧ (∀ (ms : Int → Option Nat) (lh : LHTicket) (mo : Option Nat),
        lh.spam = false →
        matchSubmittedBy lh.latest_body = none →
        map_ticket_id cfg lh.number = lh.number →
        milestone_ref ms lh.milestone_id = Except.ok mo →
        (eqFallback cfg (map_user cfg lh.creator_name) = true →
          ticketBody? (convert_ticket cfg ms lh) =
            some (fix_code_blocks (fix_tickets_numbers cfg
              ("Originally submitted by: " ++ lh.creator_name ++ "\n\n" ++ lh.latest_body))))
        ∧ (eqFallback cfg (map_user cfg lh.creator_name) = false →
          ticketBody? (convert_ticket cfg ms lh) =
            some (fix_code_blocks (fix_tickets_numbers cfg lh.latest_body)))) := by
  constructor
  · intro ver
    constructor
    · intro h; simp [convert_comment, h]
    · intro h; simp [convert_comment, h]
  · intro ms lh mo hspam hmatch hnum hms
    constructor
    · intro h
      simp [convert_ticket, hspam, hmatch, hnum, hms, h, ticketBody?, joinBlank]
    · intro h
      simp [convert_ticket, hspam, hmatch, hnum, hms, h, ticketBody?, joinBlank]

theorem c3_witness :
    (convert_comment cfgE (mkVer "carol" "hi" "2010-01-01" false)).body =
      "Originally submitted by: carol\n\nhi"
    ∧ ticketBody? (convert_ticket cfg0 ms0 tkNB) = some "plain body" := by
  constructor
  · have h := ((c3_notice_iff_fallback_eq cfgE).1 (mkVer "carol" "hi" "2010-01-01" false)).1
      (by decide)
    rw [h]; decide
  · have h := ((c3_notice_iff_fallback_eq cfg0).2 ms0 tkNB none (by decide) (by decide)
      (by decide) rfl).2 (by decide)
    rw [h]; decide

/-- Claim C4 (counterexample): with threshold 5 and offset 10, the unique
source ids 3 and 13 both map to destination id 13, and the conversion dict
collapses the two tickets into one entry — destination ids are NOT unique
for every threshold/offset configuration. -/
theorem c4_collision :
    (([(3 : Int), 13]).Nodup)
    ∧ ¬ (destIds cfgC [(3, tkA), (13, tkB)]).Nodup
    ∧ Except.map (fun l => l.map Prod.fst) (convert_tickets cfgC ms0 [(3, tkA), (13, tkB)]) =
        Except.ok [13] := by
  refine ⟨by decide, by decide, ?_⟩
  rfl

/-- Claim C4 (amended): destination ids are unique provided the source ids
are unique AND the configuration is collision-free, i.e. no source id above
the threshold equals a below-threshold source id plus the offset. -/
theorem c4_unique_when_no_overlap (cfg : Config) (lhs : List (Int × LHTicket))
    (hids : (lhs.map Prod.fst).Nodup)
    (hsafe : ∀ T, cfg.remap_until = some T →
      ∀ a ∈ lhs.map Prod.fst, ∀ b ∈ lhs.map Prod.fst,
        a ≤ T → T < b → b ≠ a + cfg.remap_offset) :
    (destIds cfg lhs).Nodup := by
  unfold destIds
  have hmm : (lhs.filter (fun p => !p.2.spam)).map (fun p => map_ticket_id cfg p.1) =
      ((lhs.filter (fun p => !p.2.spam)).map Prod.fst).map (map_ticket_id cfg) := by
    rw [List.map_map]; rfl
  rw [hmm]
  have hsubl : List.Sublist ((lhs.filter (fun p => !p.2.spam)).map Prod.fst) (lhs.map Prod.fst) :=
    (List.filter_sublist lhs).map Prod.fst
  have hnd : ((lhs.filter (fun p => !p.2.spam)).map Prod.fst).Nodup := hsubl.nodup hids
  apply List.Nodup.map_on _ hnd
  intro x hx y hy hxy
  have hx' : x ∈ lhs.map Prod.fst := hsubl.subset hx
  have hy' : y ∈ lhs.map Prod.fst := hsubl.subset hy
  cases hu : cfg.remap_until with
  | none => simpa [map_ticket_id, hu] using hxy
  | some T =>
    simp only [map_ticket_id, hu] at hxy
    split_ifs at hxy with h1 h2 h2
    · omega
    · exact absurd hxy.symm (hsafe T hu x hx' y hy' h1 (by omega))
    · exact absurd hxy (hsafe T hu y hy' x hx' h2 (by omega))
    · exact hxy

theorem c4_witness :
    (([(3 : Int), 13]).Nodup) ∧ (destIds cfgR [(3, tkA), (13, tkB)]).Nodup := by
  refine ⟨by decide, c4_unique_when_no_overlap cfgR [(3, tkA), (13, tkB)] (by decide) ?_⟩
  intro T hT a ha b hb h1 h2
  have hT' : T = 100 := by
    have h100 : (some (100 : Int)) = some T := hT
    exact (Option.some.inj h100).symm
  subst hT'
  have hb' : b = 3 ∨ b = 13 := by simpa using hb
  rcases hb' with h | h <;> omega

theorem enumFrom_fst {α : Type} (l : List α) :
    ∀ n : Nat, (List.enumFrom n l).map Prod.fst = List.range' n l.length := by
  induction l with
  | nil => intro n; rfl
  | cons x xs ih => intro n; simp [List.enumFrom, List.range', ih]

theorem enumFrom_snd {α : Type} (l : List α) :
    ∀ n : Nat, (List.enumFrom n l).map Prod.snd = l := by
  induction l with
  | nil => intro n; rfl
  | cons x xs ih => intro n; simp [List.enumFrom, ih]

/-- Claim C6: converting a milestone set with unique ids yields destination
numbers that are exactly the dense sequence 1..N in output order, output
keyed by a permutation of the original source ids, with source ids strictly
increasing along the output — so numbers are assigned in ascending
source-id order. -/
theorem c6_milestones (lhms : List (Int × LHMilestone))
    (h : (lhms.map Prod.fst).Nodup) :
    ((convert_milestones lhms).map (fun p => p.2.number) = List.range' 1 lhms.length)
    ∧ ((convert_milestones lhms).map Prod.fst).Perm (lhms.map Prod.fst)
    ∧ (convert_milestones lhms).Pairwise (fun p q => p.1 < q.1) := by
  have hperm : (List.insertionSort msLE lhms).Perm lhms := List.perm_insertionSort msLE lhms
  have hlen : (List.insertionSort msLE lhms).length = lhms.length := hperm.length_eq
  refine ⟨?_, ?_, ?_⟩
  · unfold convert_milestones
    rw [List.map_map]
    have : ((fun p => p.2.number) ∘ fun p : Nat × (Int × LHMilestone) =>
        ((p.2.1, convert_milestone p.2.2 p.1) : Int × GHMilestone)) = Prod.fst := by
      funext p; rfl
    rw [this, enumFrom_fst, hlen]
  · unfold convert_milestones
    rw [List.map_map]
    have : (Prod.fst ∘ fun p : Nat × (Int × LHMilestone) =>
        ((p.2.1, convert_milestone p.2.2 p.1) : Int × GHMilestone)) =
        ((fun q : Int × LHMilestone => q.1) ∘ Prod.snd) := by
      funext p; rfl
    rw [this, ← List.map_map, enumFrom_snd]
    exact hperm.map _
  · unfold convert_milestones
    rw [List.pairwise_map]
    have hsorted : (List.insertionSort msLE lhms).Pairwise msLE :=
      List.sorted_insertionSort msLE lhms
    have hndk : ((List.insertionSort msLE lhms).map Prod.fst).Nodup :=
      ((hperm.map Prod.fst).symm).nodup h
    have hne : (List.insertionSort msLE lhms).Pairwise (fun a b => a.1 ≠ b.1) :=
      List.pairwise_map.mp hndk
    have hlt : (List.insertionSort msLE lhms).Pairwise (fun a b => a.1 < b.1) :=
      (hsorted.and hne).imp (fun hab => lt_of_le_of_ne hab.1 hab.2)
    have hsnd : (List.enumFrom 1 (List.insertionSort msLE lhms)).Pairwise
        (fun a b => a.2.1 < b.2.1) := by
      have := List.pairwise_map.mp
        ((enumFrom_snd (List.insertionSort msLE lhms) 1).symm ▸ hlt)
      exact this
    exact hsnd.imp (fun hab => hab)

theorem c6_witness :
    ((List.map Prod.fst [((10 : Int), mkMs "a"), (3, mkMs "b")]).Nodup)
    ∧ ((convert_milestones [((10 : Int), mkMs "a"), (3, mkMs "b")]).map
        (fun p => p.2.number) = List.range' 1 2)
    ∧ ((convert_milestones [((10 : Int), mkMs "a"), (3, mkMs "b")]).map Prod.fst).Perm
        (List.map Prod.fst [((10 : Int), mkMs "a"), (3, mkMs "b")])
    ∧ (convert_milestones [((10 : Int), mkMs "a"), (3, mkMs "b")]).Pairwise
        (fun p q => p.1 < q.1) := by
  have h := c6_milestones [((10 : Int), mkMs "a"), (3, mkMs "b")] (by decide)
  exact ⟨by decide, h.1, h.2.1, h.2.2⟩

/-- Claim C7: the cross-reference pass rewrites a `#<digits>` token through
`map_ticket_id` and leaves the surrounding text (in particular all other
digits) to be processed independently; and in comment/ticket conversion the
cross-reference pass runs before the fence pass, so a body `see #42` under
a remap sending 42 to 142 comes out as `see #142`. -/
theorem c7_crossref (cfg : Config) :
    (∀ t1 ds t2 : List Char,
        '#' ∉ t1 → ds ≠ [] → (∀ c ∈ ds, c.isDigit = true) →
        (∀ c, t2.head? = some c → c.isDigit = false) →
        fix_tickets_numbers cfg (String.mk (t1 ++ '#' :: ds ++ t2)) =
          String.mk (t1 ++ '#' ::
            (toString (map_ticket_id cfg (Int.ofNat (digitsToNat ds)))).data ++
            fixNumsL cfg t2))
    ∧ (convert_comment cfgR (mkVer "u" "see #42 and #7" "2010-01-01" false)).body =
        "see #142 and #107"
    ∧ ticketBody? (convert_ticket cfgR ms0 tkRef) = some "see #142" := by
  refine ⟨?_, by decide, by decide⟩
  intro t1 ds t2 h1 hds hdig h2
  unfold fix_tickets_numbers
  rw [show (String.mk (t1 ++ '#' :: ds ++ t2)).data = t1 ++ '#' :: ds ++ t2 from rfl]
  rw [fixNumsL_token cfg t1 ds t2 h1 hds hdig h2]

theorem c7_witness :
    fix_tickets_numbers cfgR (String.mk ("Bug ".data ++ '#' :: ['4', '2'] ++ " open".data)) =
      String.mk ("Bug ".data ++ '#' ::
        (toString (map_ticket_id cfgR (Int.ofNat (digitsToNat ['4', '2'])))).data ++
        fixNumsL cfgR " open".data) :=
  (c7_crossref cfgR).1 "Bug ".data ['4', '2'] " open".data (by decide) (by decide)
    (by decide) (by decide)

/-- Claim C8: when the latest body embeds a `Submitted by: <name>` header
followed by a blank line, the converted ticket takes the embedded name
(through the identity mapper) as its author — regardless of the recorded
creator — and (absent notes and rewrite-relevant characters) the body is
the remainder with leading whitespace stripped; otherwise the recorded
creator is the author and the full latest body is used as-is. -/
theorem c8_submitted_by :
    (∀ (cfg : Config) (ms : Int → Option Nat) (lh : LHTicket) (ws nm rest : List Char)
        (mo : Option Nat),
        lh.spam = false →
        milestone_ref ms lh.milestone_id = Except.ok mo →
        lh.latest_body = String.mk ("Submitted by:".data ++ ws ++ nm ++ '\n' :: '\n' :: rest) →
        ws ≠ [] → (∀ c ∈ ws, isPySpace c = true) →
        nm ≠ [] → '\n' ∉ nm → (∀ c, nm.head? = some c → isPySpace c = false) →
        ticketUser? (convert_ticket cfg ms lh) = some (map_user cfg (String.mk nm))
        ∧ (eqFallback cfg (map_user cfg (String.mk nm)) = false →
            map_ticket_id cfg lh.number = lh.number →
            '#' ∉ rest → '@' ∉ rest →
            ticketBody? (convert_ticket cfg ms lh) = some (pyLstrip (String.mk rest))))
    ∧ (∀ (cfg : Config) (ms : Int → Option Nat) (lh : LHTicket) (mo : Option Nat),
        lh.spam = false →
        milestone_ref ms lh.milestone_id = Except.ok mo →
        matchSubmittedBy lh.latest_body = none →
        ticketUser? (convert_ticket cfg ms lh) = some (map_user cfg lh.creator_name)
        ∧ (eqFallback cfg (map_user cfg lh.creator_name) = false →
            map_ticket_id cfg lh.number = lh.number →
            '#' ∉ lh.latest_body.data → '@' ∉ lh.latest_body.data →
            ticketBody? (convert_ticket cfg ms lh) = some lh.latest_body)) := by
  constructor
  · intro cfg ms lh ws nm rest mo hspam hms hbody hws hwsSp hnm hnmNl hhead
    have hmatch : matchSubmittedBy lh.latest_body = some (String.mk nm, String.mk rest) := by
      rw [hbody]
      exact matchSubmittedBy_pos ws nm rest hws hwsSp hnm hnmNl hhead
    constructor
    · simp [convert_ticket, hspam, hms, hmatch, ticketUser?]
    · intro hfb hnum hhash hat
      have hb1 : '#' ∉ (pyLstrip (String.mk rest)).data := not_mem_dropWhile isPySpace rest '#' hhash
      have hb2 : '@' ∉ (pyLstrip (String.mk rest)).data := not_mem_dropWhile isPySpace rest '@' hat
      simp [convert_ticket, hspam, hms, hmatch, hnum, hfb, ticketBody?, joinBlank,
        fix_tickets_numbers_id cfg (pyLstrip (String.mk rest)) hb1,
        fix_code_blocks_id (pyLstrip (String.mk rest)) hb2]
  · intro cfg ms lh mo hspam hms hmatch
    constructor
    · simp [convert_ticket, hspam, hms, hmatch, ticketUser?]
    · intro hfb hnum hhash hat
      simp [convert_ticket, hspam, hms, hmatch, hnum, hfb, ticketBody?, joinBlank,
        fix_tickets_numbers_id cfg lh.latest_body hhash,
        fix_code_blocks_id lh.latest_body hat]

theorem c8_witness :
    ticketUser? (convert_ticket cfg0 ms0 tkSB) = some "Carol"
    ∧ ticketBody? (convert_ticket cfg0 ms0 tkSB) = some "Hello world"
    ∧ ticketUser? (convert_ticket cfg0 ms0 tkNB) = some "dave"
    ∧ ticketBody? (convert_ticket cfg0 ms0 tkNB) = some "plain body" := by
  have hA := c8_submitted_by.1 cfg0 ms0 tkSB [' '] "Carol".data "Hello world".data none
    (by decide) rfl (by decide) (by decide) (by decide) (by decide) (by decide) (by decide)
  have hB := c8_submitted_by.2 cfg0 ms0 tkNB none (by decide) rfl (by decide)
  refine ⟨?_, ?_, ?_, ?_⟩
  · rw [hA.1]; decide
  · rw [hA.2 (by decide) (by decide) (by decide) (by decide)]; decide
  · rw [hB.1]; decide
  · rw [hB.2 (by decide) (by decide) (by decide) (by decide)]; decide
